import Mathlib

/-!
Verification development of replay_player, `src/main.cpp`.

The program attaches to a running process, scans its memory for three byte
signatures, resolves three pointers from the matches, loads a recorded replay
and then drives keyboard and cursor input from the replay frames.

The definitions below embed the functions of `main.cpp` one by one.  Globals
(`proc`, `time_pointer`, `mode_pointer`, `gf_ptr_ptr`, `active_replay`) are
passed explicitly.  The operating system is an input: the memory of the target
process is a partial function from addresses to bytes, the region enumeration
is the list of `MEMORY_BASIC_INFORMATION` records the successive
`VirtualQueryEx` calls return, and every iteration of the playback loop sees
its own memory snapshot.
-/

namespace ReplayPlayer

/-! ## Replay frames and the seek of `update_replay` -/

/-- A pair of `float` coordinates (`osp::vector2f`), over a carrier `F` of float values. -/
structure vector2f (F : Type) where
  x : F
  y : F
deriving DecidableEq, Repr

/-- One frame of `osp::osr::replay_frames`: the fields `update_replay` reads. -/
structure replay_frame (F : Type) where
  time : Int
  position : vector2f F
  keys : Nat
deriving DecidableEq, Repr

/-- The loop of `std::lower_bound(first, last, value, comp)` with
`comp = [](frame, time) { return frame.time < time; }`: `first` and `len` are the
loop variables, the first argument bounds the number of iterations. -/
def lower_bound_loop {F : Type} (frames : List (replay_frame F)) (value : Int) :
    Nat → Nat → Nat → Nat
  | 0, first, _ => first
  | fuel + 1, first, len =>
    if len = 0 then first
    else
      let half := len / 2
      let middle := first + half
      match frames[middle]? with
      | some frame =>
        if frame.time < value then
          lower_bound_loop frames value fuel (middle + 1) (len - half - 1)
        else
          lower_bound_loop frames value fuel first half
      | none => first

/-- The index `std::lower_bound(frames.begin(), frames.end(), audio_time, filter)`
returns (line 254); `frames.length` stands for `frames.end()`. -/
def lower_bound {F : Type} (frames : List (replay_frame F)) (audio_time : Int) : Nat :=
  lower_bound_loop frames audio_time frames.length 0 frames.length

/-- The frame `it` points to after line 254, `none` when `it == frames.end()`. -/
def seek {F : Type} (frames : List (replay_frame F)) (audio_time : Int) :
    Option (replay_frame F) :=
  frames[lower_bound frames audio_time]?

/-- The frame sequence is sorted ascending by time. -/
def SortedByTime {F : Type} (frames : List (replay_frame F)) : Prop :=
  frames.Pairwise (fun a b => a.time ≤ b.time)

instance {F : Type} (frames : List (replay_frame F)) : Decidable (SortedByTime frames) :=
  inferInstanceAs
    (Decidable (List.Pairwise (fun (a b : replay_frame F) => a.time ≤ b.time) frames))

/-- The seek as the specification words it: the last frame whose time is at most
`audio_time`. -/
def last_frame_at_or_before {F : Type} (frames : List (replay_frame F)) (audio_time : Int) :
    Option (replay_frame F) :=
  (frames.filter (fun f => decide (f.time ≤ audio_time))).getLast?

/-! ## The target process and `scan_memory` -/

/-- The memory of the target process: the byte at an address, `none` where a read
fails. -/
abbrev Memory := Nat → Option Nat

/-- The call `ReadProcessMemory(proc, addr, buffer, size, nullptr)`: the `size` bytes
starting at `addr`, `none` when the call returns `FALSE`. -/
def ReadProcessMemory (mem : Memory) (addr : Nat) : Nat → Option (List Nat)
  | 0 => some []
  | size + 1 =>
    match mem addr, ReadProcessMemory mem (addr + 1) size with
    | some b, some bs => some (b :: bs)
    | _, _ => none

/-- The little-endian 32-bit value of four bytes. -/
def le32 : List Nat → Nat
  | [b0, b1, b2, b3] => b0 % 256 + 256 * (b1 % 256) + 65536 * (b2 % 256) + 16777216 * (b3 % 256)
  | _ => 0

/-- A `ReadProcessMemory` of `sizeof(std::uint32_t)` bytes at a 32-bit address:
the value stored there, `none` when the read fails. -/
def read_u32 (mem : Memory) (addr : Nat) : Option Nat :=
  (ReadProcessMemory mem addr 4).map le32

/-- The fields of `MEMORY_BASIC_INFORMATION` that `scan_memory` reads. -/
structure MEMORY_BASIC_INFORMATION where
  State : Nat
  Protect : Nat
  RegionSize : Nat
deriving DecidableEq, Repr

def MEM_COMMIT : Nat := 0x1000

def PAGE_EXECUTE_READWRITE : Nat := 0x40

/-- The signature search `ctfp::find<sig>(data)` of the ctfp library, which is not
part of the source tree: from the signature text and the region bytes to the
offset of the match inside `data`, `none` when the result is null. -/
abbrev Finder := String → List Nat → Option Nat

def time_signature : String := "DEE983EC04D91C24E8????8B85"

def mode_signature : String := "A1????3B05????7410"

def gamefield_signature : String := "8B0D????BA010000003909E8????833D"

/-- The globals `time_pointer`, `mode_pointer` and `gf_ptr_ptr` (each a
`std::uint32_t`), and a record of the `ctfp::find` calls made so far: the
signature searched and the base address of the region searched. -/
structure scan_state where
  time_pointer : Nat
  mode_pointer : Nat
  gf_ptr_ptr : Nat
  searched : List (String × Nat)
deriving DecidableEq, Repr

/-- The lambda `translate` of `scan_memory` (line 189) followed by the assignment to
a `std::uint32_t`: `off` is `buf_addr - buffer`, the offset into the local copy
of the region, and `p` the base address of the region. -/
def translate (p off : Nat) : Nat := (off + p) % 2 ^ 32

/-- The body of one `if (const auto result = ctfp::find<sig>(data))` block
(lines 194-198, 202-205, 209-212): the new value of the pointer, `none` when the
signature does not match.  The pointer is first set to the translated address
of `result + k`; the `ReadProcessMemory` into the pointer itself then overwrites
it when it succeeds. -/
def resolve (find : Finder) (mem : Memory) (p : Nat) (data : List Nat) (sig : String)
    (k : Nat) : Option Nat :=
  match find sig data with
  | none => none
  | some result =>
    let slot := translate p (result + k)
    match read_u32 mem slot with
    | some value => some value
    | none => some slot

/-- Lines 193-199 of `scan_memory`. -/
def scan_time (find : Finder) (mem : Memory) (p : Nat) (data : List Nat)
    (st : scan_state) : scan_state :=
  if st.time_pointer = 0 then
    match resolve find mem p data time_signature 0x1E with
    | some v => { st with time_pointer := v, searched := st.searched ++ [(time_signature, p)] }
    | none => { st with searched := st.searched ++ [(time_signature, p)] }
  else st

/-- Lines 201-206 of `scan_memory`. -/
def scan_mode (find : Finder) (mem : Memory) (p : Nat) (data : List Nat)
    (st : scan_state) : scan_state :=
  if st.mode_pointer = 0 then
    match resolve find mem p data mode_signature 0x1 with
    | some v => { st with mode_pointer := v, searched := st.searched ++ [(mode_signature, p)] }
    | none => { st with searched := st.searched ++ [(mode_signature, p)] }
  else st

/-- Lines 208-213 of `scan_memory`. -/
def scan_gamefield (find : Finder) (mem : Memory) (p : Nat) (data : List Nat)
    (st : scan_state) : scan_state :=
  if st.gf_ptr_ptr = 0 then
    match resolve find mem p data gamefield_signature 0x2 with
    | some v =>
      { st with gf_ptr_ptr := v, searched := st.searched ++ [(gamefield_signature, p)] }
    | none => { st with searched := st.searched ++ [(gamefield_signature, p)] }
  else st

/-- Lines 187-213 of `scan_memory`: the three signature blocks on the bytes `data` of
the region at address `p`. -/
def scan_data (find : Finder) (mem : Memory) (p : Nat) (data : List Nat)
    (st : scan_state) : scan_state :=
  scan_gamefield find mem p data (scan_mode find mem p data (scan_time find mem p data st))

/-- The test of line 215. -/
def all_resolved (st : scan_state) : Bool :=
  st.time_pointer != 0 && st.mode_pointer != 0 && st.gf_ptr_ptr != 0

/-- The `for` loop of `scan_memory` (line 176): `regions` are the records the
successive `VirtualQueryEx` calls return until one returns 0, `p` is the loop
variable, advanced by `inf.RegionSize`.  The two `continue` statements skip the
`break` test. -/
def scan_loop (find : Finder) (mem : Memory) :
    List MEMORY_BASIC_INFORMATION → Nat → scan_state → scan_state
  | [], _, st => st
  | inf :: rest, p, st =>
    if inf.State &&& MEM_COMMIT = 0 ∨ inf.Protect ≠ PAGE_EXECUTE_READWRITE then
      scan_loop find mem rest (p + inf.RegionSize) st
    else
      match ReadProcessMemory mem p inf.RegionSize with
      | none => scan_loop find mem rest (p + inf.RegionSize) st
      | some data =>
        let st1 := scan_data find mem p data st
        if all_resolved st1 then st1
        else scan_loop find mem rest (p + inf.RegionSize) st1

/-- What one iteration of the `for` loop does to the globals, for the region `inf` at
address `p` (lines 177-213). -/
def scan_region (find : Finder) (mem : Memory) (p : Nat) (inf : MEMORY_BASIC_INFORMATION)
    (st : scan_state) : scan_state :=
  scan_loop find mem [inf] p st

/-- The function `scan_memory`: the loop from `p = nullptr` with the three globals at
their initial value 0. -/
def scan_memory (find : Finder) (mem : Memory) (regions : List MEMORY_BASIC_INFORMATION) :
    scan_state :=
  scan_loop find mem regions 0 ⟨0, 0, 0, []⟩

/-- The three signatures `scan_memory` searches for. -/
inductive signature where
  | time
  | mode
  | gamefield
deriving DecidableEq, Repr

/-- The text of a signature, as passed to `ctfp::find`. -/
def signature.text : signature → String
  | .time => time_signature
  | .mode => mode_signature
  | .gamefield => gamefield_signature

/-- The byte offset added to the match of a signature (lines 195, 203, 210). -/
def signature.offset : signature → Nat
  | .time => 0x1E
  | .mode => 0x1
  | .gamefield => 0x2

/-- The global a signature resolves. -/
def scan_state.pointer (st : scan_state) : signature → Nat
  | .time => st.time_pointer
  | .mode => st.mode_pointer
  | .gamefield => st.gf_ptr_ptr

/-- A nonzero pointer is frozen: `later` holds the same value for `s` as `earlier`, and
every `ctfp::find` call recorded since was for another signature. -/
def frozen (s : signature) (earlier later : scan_state) : Prop :=
  later.pointer s = earlier.pointer s ∧
  ∃ extra, later.searched = earlier.searched ++ extra ∧ ∀ e ∈ extra, e.1 ≠ s.text

/-! ### A reference implementation of the signature search -/

/-- One element of a compiled signature: an exact byte or a wildcard (`none`). -/
abbrev byte_matcher := Option Nat

/-- The value of a hexadecimal digit: its position among the sixteen digits, in
upper or in lower case. -/
def hex_digit (c : Char) : Option Nat :=
  match "0123456789ABCDEF".toList.indexOf? c with
  | some d => some d
  | none => "0123456789abcdef".toList.indexOf? c

/-- Modelled from the spec: the PatternCompiler of section 4.1, which belongs to
the ctfp library and is missing from the source tree.  Two hex digits are an
exact byte, a `?` is a wildcard byte, anything else is malformed.  With one
wildcard byte per `?` the pointer slots of the mode and gamefield signatures
(offsets 1 and 2, four bytes) are exactly their first four wildcards. -/
def compile_signature : List Char → Option (List byte_matcher)
  | [] => some []
  | [c] => if c = '?' then some [none] else none
  | a :: b :: rest =>
    if a = '?' then (compile_signature (b :: rest)).map (fun ms => none :: ms)
    else
      match hex_digit a, hex_digit b, compile_signature rest with
      | some h, some l, some ms => some (some (16 * h + l) :: ms)
      | _, _, _ => none

/-- The window comparison of section 4.2: every matcher accepts the byte at
its position. -/
def matches_at : List byte_matcher → List Nat → Bool
  | [], _ => true
  | _ :: _, [] => false
  | none :: ms, _ :: bs => matches_at ms bs
  | some v :: ms, b :: bs => v == b && matches_at ms bs

/-- The sliding window of section 4.2 from offset `off` on: the first offset
at which the whole signature matches. -/
def find_from (sig : List byte_matcher) : List Nat → Nat → Option Nat
  | [], _ => none
  | b :: bs, off => if matches_at sig (b :: bs) then some off else find_from sig bs (off + 1)

/-- Modelled from the spec: the matcher `ctfp::find` of the ctfp library, missing
from the source tree, as sections 4.1 and 4.2 describe it: compile the
signature, then slide it over the region's bytes. -/
def ctfp_find : Finder := fun sig data =>
  match compile_signature sig.toList with
  | some (m :: ms) => find_from (m :: ms) data 0
  | _ => none

/-! ## Live state, the coordinate transform and `update_replay` -/

/-- The `float` arithmetic the program uses, over a carrier `F`: the four
operations, negation, the value of a literal, the conversion
`static_cast<float>` of a `std::uint32_t` and the conversion `static_cast<int>`. -/
structure float_ops (F : Type) where
  add : F → F → F
  sub : F → F → F
  mul : F → F → F
  div : F → F → F
  neg : F → F
  lit : ℚ → F
  of_uint32 : Nat → F
  to_int : F → Int

/-- The value of a `std::int32_t` read from four bytes. -/
def to_int32 (v : Nat) : Int :=
  if v % 2 ^ 32 < 2 ^ 31 then (v % 2 ^ 32 : Nat) else (v % 2 ^ 32 : Nat) - 2 ^ 32

/-- The function `read_time`: `time` starts at 0 and keeps it when the read fails. -/
def read_time (mem : Memory) (time_pointer : Nat) : Int :=
  match read_u32 mem time_pointer with
  | some v => to_int32 v
  | none => 0

/-- The function `read_mode`; `none` when the read fails and the uninitialised `mode`
is returned. -/
def read_mode (mem : Memory) (mode_pointer : Nat) : Option Int :=
  (read_u32 mem mode_pointer).map to_int32

/-- The enumerator `osu_modes::play`. -/
def osu_modes_play : Int := 2

/-- The function `read_gamefield`; `none` when the read fails and the uninitialised
`gamefield` is returned. -/
def read_gamefield (mem : Memory) (gf_ptr_ptr : Nat) : Option Nat :=
  read_u32 mem gf_ptr_ptr

/-- The function `read_window`: the pointer at `gamefield + 0x4`. -/
def read_window (mem : Memory) (gf_ptr_ptr : Nat) : Option Nat :=
  match read_gamefield mem gf_ptr_ptr with
  | some gamefield => read_u32 mem ((gamefield + 0x4) % 2 ^ 32)
  | none => none

/-- The function `read_window_size`: the two `std::uint32_t` at `window + 0x4` and
`window + 0x8`, each converted to `float`. -/
def read_window_size {F : Type} (ops : float_ops F) (mem : Memory) (gf_ptr_ptr : Nat) :
    Option (vector2f F) :=
  match read_window mem gf_ptr_ptr with
  | some window =>
    match read_u32 mem ((window + 0x4) % 2 ^ 32), read_u32 mem ((window + 0x8) % 2 ^ 32) with
    | some x, some y => some ⟨ops.of_uint32 x, ops.of_uint32 y⟩
    | _, _ => none
  | none => none

/-- The arithmetic of `scale` (lines 101-119); `size` is the value `read_window_size()`
returns at line 104. -/
def scale {F : Type} (ops : float_ops F) (size pos : vector2f F) : vector2f F :=
  let playfield_width := ops.lit 512
  let playfield_height := ops.lit 384
  let width := size.x
  let height := size.y
  let ratio := ops.div height (ops.lit 480)
  let width_ratio := ops.mul playfield_width ratio
  let height_ratio := ops.mul playfield_height ratio
  let vx := ops.mul (ops.sub width width_ratio) (ops.lit (1 / 2))
  let vy := ops.add (ops.mul (ops.div (ops.sub height height_ratio) (ops.lit 4)) (ops.lit 3))
    (ops.mul (ops.neg (ops.lit 16)) ratio)
  let rate_x := ops.div pos.x playfield_width
  let rate_y := ops.div pos.y playfield_height
  ⟨ops.add (ops.mul width_ratio rate_x) vx, ops.add (ops.mul height_ratio rate_y) vy⟩

/-- The calls the playback loop makes to the input functions of the system. -/
inductive input_event where
  | keybd_event (vk : Nat) (flags : Nat)
  | SetCursorPos (x y : Int)
deriving DecidableEq, Repr

def KEYEVENTF_KEYUP : Nat := 0x2

def VK_LBUTTON : Nat := 0x1

def VK_RBUTTON : Nat := 0x2

/-- The enumerators of `osp::key_state` that `update_replay` names; the osp library is
not part of the source tree, so their values are a parameter. -/
structure key_state where
  m1 : Nat
  m2 : Nat
  k1 : Nat
  k2 : Nat
  smoke : Nat

/-- The lambda `check_key` (lines 260-266). -/
def check_key (keys flag vk : Nat) : input_event :=
  if keys &&& flag ≠ 0 then .keybd_event vk 0 else .keybd_event vk KEYEVENTF_KEYUP

/-- How a run of the playback loop stands: still `running` when the supplied
snapshots are used up, `finished` after the `break`, stopped at the
dereference of a null `active_replay`, or stopped at the use of an
uninitialised value a failed read left behind. -/
inductive loop_status where
  | running
  | finished
  | null_dereference
  | indeterminate
deriving DecidableEq, Repr

/-- A run of `update_replay`: the input calls made in order, how the loop stands,
and the number of iterations started. -/
structure playback where
  events : List input_event
  status : loop_status
  iterations : Nat
deriving DecidableEq, Repr

/-- The function `update_replay`.  Each iteration of `while (true)` reads the target
through the next memory snapshot of the list. -/
def update_replay {F : Type} (ops : float_ops F) (ks : key_state) (ptrs : scan_state)
    (active_replay : Option (List (replay_frame F))) : List Memory → playback
  | [] => ⟨[], .running, 0⟩
  | mem :: rest =>
    match read_mode mem ptrs.mode_pointer with
    | none => ⟨[], .indeterminate, 1⟩
    | some mode =>
      if mode ≠ osu_modes_play then
        let r := update_replay ops ks ptrs active_replay rest
        ⟨r.events, r.status, r.iterations + 1⟩
      else
        let audio_time := read_time mem ptrs.time_pointer
        match active_replay with
        | none => ⟨[], .null_dereference, 1⟩
        | some frames =>
          match seek frames audio_time with
          | none => ⟨[], .finished, 1⟩
          | some it =>
            let keys := [check_key it.keys ks.m1 VK_LBUTTON, check_key it.keys ks.m2 VK_RBUTTON,
              check_key it.keys ks.k1 'Z'.toNat, check_key it.keys ks.k2 'X'.toNat,
              check_key it.keys ks.smoke 'C'.toNat]
            match read_window_size ops mem ptrs.gf_ptr_ptr with
            | none => ⟨keys, .indeterminate, 1⟩
            | some size =>
              let scaled_pos := scale ops size it.position
              let r := update_replay ops ks ptrs active_replay rest
              ⟨keys ++ [.SetCursorPos (ops.to_int scaled_pos.x) (ops.to_int scaled_pos.y)]
                ++ r.events, r.status, r.iterations + 1⟩

/-! ## `open_process`, `accept_replay` and `main` -/

/-- The fields of `SYSTEM_PROCESS_INFORMATION` that `open_process` reads; `ImageName`
is `none` when `ImageName.Buffer` is null. -/
structure SYSTEM_PROCESS_INFORMATION where
  NextEntryOffset : Nat
  ImageName : Option String
  UniqueProcessId : Nat
deriving DecidableEq, Repr

/-- A process handle; `OpenProcess` returns `NULL`, that is 0, when it fails. -/
abbrev HANDLE := Int

def INVALID_HANDLE_VALUE : HANDLE := -1

/-- The second loop of `open_process` (lines 152-164) and the final `return false`:
the return value and the global `proc`.  The list holds the entries of the
buffer in order, `process + process->NextEntryOffset` being the next one. -/
def open_process_loop (process_name : String) (OpenProcess : Nat → HANDLE) :
    List SYSTEM_PROCESS_INFORMATION → HANDLE → Bool × HANDLE
  | [], proc => (false, proc)
  | process :: rest, proc =>
    if process.NextEntryOffset ≠ 0 then
      match process.ImageName with
      | some name =>
        if process_name = name then
          let proc1 := OpenProcess process.UniqueProcessId
          (decide (proc1 ≠ INVALID_HANDLE_VALUE), proc1)
        else open_process_loop process_name OpenProcess rest proc
      | none => open_process_loop process_name OpenProcess rest proc
    else (false, proc)

/-- The function `open_process`; `processes` is the list `NtQuerySystemInformation`
left in the buffer, and `proc` starts as `INVALID_HANDLE_VALUE`. -/
def open_process (process_name : String) (OpenProcess : Nat → HANDLE)
    (processes : List SYSTEM_PROCESS_INFORMATION) : Bool × HANDLE :=
  open_process_loop process_name OpenProcess processes INVALID_HANDLE_VALUE

/-- The function `accept_replay`: `loaded` is what `osp::osr::from_file` returns for
the path typed in, `none` for a null pointer.  The result is the global
`active_replay` and the lines written to `stderr`. -/
def accept_replay {F : Type} (loaded : Option (List (replay_frame F))) :
    Option (List (replay_frame F)) × List String :=
  match loaded with
  | none => (none, ["Failed to load the replay file."])
  | some replay => (some replay, [])

/-- What a run of `main` comes to: the early `return EXIT_FAILURE`, or the call of
`update_replay` with the pointers `scan_memory` left and the run of the loop. -/
inductive main_outcome where
  | exit_failure
  | entered_update_replay (stderr : List String) (ptrs : scan_state) (run : playback)
deriving DecidableEq, Repr

/-- The function `main`. -/
def main {F : Type} (ops : float_ops F) (ks : key_state) (find : Finder)
    (OpenProcess : Nat → HANDLE) (processes : List SYSTEM_PROCESS_INFORMATION)
    (regions : List MEMORY_BASIC_INFORMATION) (mem : Memory)
    (loaded : Option (List (replay_frame F))) (snapshots : List Memory) : main_outcome :=
  if (open_process "osu!.exe" OpenProcess processes).1 = false then .exit_failure
  else
    let ptrs := scan_memory find mem regions
    let replay := accept_replay loaded
    .entered_update_replay replay.2 ptrs (update_replay ops ks ptrs replay.1 snapshots)

/-! ## Concrete inputs -/

/-- Exact rational arithmetic, an instance of `float_ops`. -/
def exact_ops : float_ops ℚ where
  add := fun a b => a + b
  sub := fun a b => a - b
  mul := fun a b => a * b
  div := fun a b => a / b
  neg := fun a => -a
  lit := fun q => q
  of_uint32 := fun n => (n : ℚ)
  to_int := fun q => if 0 ≤ q then Rat.floor q else Rat.ceil q

/-- The usual values of the osu! key flags. -/
def osu_keys : key_state := ⟨1, 2, 4, 8, 16⟩

/-- Four frames at the times 0, 10, 20 and 30. -/
def example_frames : List (replay_frame ℚ) :=
  [⟨0, ⟨256, 192⟩, 0⟩, ⟨10, ⟨100, 50⟩, 5⟩, ⟨20, ⟨300, 200⟩, 10⟩, ⟨30, ⟨512, 384⟩, 16⟩]

/-- A readable range of a target memory: `size` bytes from `base` on, the listed
bytes first and zero bytes after them. -/
structure segment where
  base : Nat
  size : Nat
  bytes : List Nat

/-- A memory made of segments; every address outside them is unreadable. -/
def memory_of (segments : List segment) : Memory := fun a =>
  segments.findSome? (fun seg =>
    if seg.base ≤ a ∧ a < seg.base + seg.size then some (seg.bytes.getD (a - seg.base) 0)
    else none)

/-- The four bytes of a 32-bit value, least significant first. -/
def u32_bytes (v : Nat) : List Nat :=
  [v % 256, v / 256 % 256, v / 65536 % 256, v / 16777216 % 256]

/-- Code the time signature matches: `fsubp`, `sub esp, 4`, `fstp [esp]`, a `call` with
a zero displacement, and the opcode of a `mov eax, [ebp + disp]`. -/
def time_code : List Nat :=
  [0xDE, 0xE9, 0x83, 0xEC, 0x04, 0xD9, 0x1C, 0x24, 0xE8, 0, 0, 0, 0, 0x8B, 0x85]

/-- Code the mode signature matches: `mov eax, [slot]`, `cmp eax, [0]`, `je`; the
pointer slot is at offset 1. -/
def mode_code (slot : Nat) : List Nat :=
  [0xA1] ++ u32_bytes slot ++ [0x3B, 0x05, 0, 0, 0, 0, 0x74, 0x10]

/-- Code the gamefield signature matches: `mov ecx, [slot]`, `mov edx, 1`,
`cmp [ecx], ecx`, a `call`, and the opcode of a `cmp`; the pointer slot is at
offset 2. -/
def gamefield_code (slot : Nat) : List Nat :=
  [0x8B, 0x0D] ++ u32_bytes slot ++
    [0xBA, 0x01, 0, 0, 0, 0x39, 0x09, 0xE8, 0, 0, 0, 0, 0x83, 0x3D]

/-- The first bytes of a page of code holding the three signatures: the time
signature at offset 0 with its pointer slot (offset `0x1E`) holding `time_slot`,
the mode signature at offset `0x22` with the slot value `0x50000`, and the
gamefield signature at offset `0x2F` with the slot value `0x60000`. -/
def code_bytes (time_slot : Nat) : List Nat :=
  time_code ++ List.replicate 15 0x90 ++ u32_bytes time_slot ++ mode_code 0x50000 ++
    gamefield_code 0x60000

/-- A target process: a code page at `0x10000`, the audio time at `0x20000`, the
gamefield at `0x30000`, the window at `0x40000` with an 800 by 600 size, the
mode at `0x50000` and the gamefield pointer at `0x60000`. -/
def target (audio_time mode : Nat) : Memory :=
  memory_of [⟨0x10000, 0x1000, code_bytes 0x20000⟩, ⟨0x20000, 4, u32_bytes audio_time⟩,
    ⟨0x30000, 8, u32_bytes 0 ++ u32_bytes 0x40000⟩,
    ⟨0x40000, 12, u32_bytes 0 ++ u32_bytes 800 ++ u32_bytes 600⟩,
    ⟨0x50000, 4, u32_bytes mode⟩, ⟨0x60000, 4, u32_bytes 0x30000⟩]

/-- The regions of `target`: the free region at address 0, then the code page. -/
def target_regions : List MEMORY_BASIC_INFORMATION :=
  [⟨0x10000, 0x1, 0x10000⟩, ⟨0x1000, 0x40, 0x1000⟩]

/-- The pointers `scan_memory` resolves in `target`. -/
def target_pointers : scan_state :=
  ⟨0x20000, 0x50000, 0x60000,
    [(time_signature, 0x10000), (mode_signature, 0x10000), (gamefield_signature, 0x10000)]⟩

/-- A target process with two code pages, at `0x10000` and at `0x11000`, that both
hold the three signatures; the pointer slot of the time signature holds 0 in
the first page and `0x20000` in the second. -/
def target_two_pages : Memory :=
  memory_of [⟨0x10000, 0x1000, code_bytes 0⟩, ⟨0x11000, 0x1000, code_bytes 0x20000⟩,
    ⟨0x20000, 4, u32_bytes 15⟩, ⟨0x30000, 8, u32_bytes 0 ++ u32_bytes 0x40000⟩,
    ⟨0x40000, 12, u32_bytes 0 ++ u32_bytes 800 ++ u32_bytes 600⟩,
    ⟨0x50000, 4, u32_bytes 2⟩, ⟨0x60000, 4, u32_bytes 0x30000⟩]

/-- The regions of `target_two_pages`: the free region at address 0 and the two code
pages. -/
def two_page_regions : List MEMORY_BASIC_INFORMATION :=
  [⟨0x10000, 0x1, 0x10000⟩, ⟨0x1000, 0x40, 0x1000⟩, ⟨0x1000, 0x40, 0x1000⟩]

/-- Three frames at the times 10, 20 and 30. -/
def three_frames : List (replay_frame ℚ) :=
  [⟨10, ⟨256, 192⟩, 5⟩, ⟨20, ⟨0, 0⟩, 2⟩, ⟨30, ⟨512, 384⟩, 24⟩]

/-- The input calls that reproduce a frame under a window size: one key call per
channel, a press (flags 0) when the frame's bit is set and a release
otherwise, then one cursor move to the scaled position. -/
def frame_events {F : Type} (ops : float_ops F) (ks : key_state) (f : replay_frame F)
    (size : vector2f F) : List input_event :=
  [.keybd_event 0x01 (if f.keys &&& ks.m1 ≠ 0 then 0 else 0x2),
   .keybd_event 0x02 (if f.keys &&& ks.m2 ≠ 0 then 0 else 0x2),
   .keybd_event 0x5A (if f.keys &&& ks.k1 ≠ 0 then 0 else 0x2),
   .keybd_event 0x58 (if f.keys &&& ks.k2 ≠ 0 then 0 else 0x2),
   .keybd_event 0x43 (if f.keys &&& ks.smoke ≠ 0 then 0 else 0x2),
   .SetCursorPos (ops.to_int (scale ops size f.position).x)
     (ops.to_int (scale ops size f.position).y)]

/-- A process list in which `osu!.exe` is the last entry, the one whose
`NextEntryOffset` is 0. -/
def processes_osu_last : List SYSTEM_PROCESS_INFORMATION :=
  [⟨0x130, none, 0⟩, ⟨0x160, some "System", 4⟩, ⟨0x148, some "explorer.exe", 3120⟩,
    ⟨0, some "osu!.exe", 4242⟩]

/-- A process list in which `osu!.exe` is followed by another entry. -/
def processes_osu_inside : List SYSTEM_PROCESS_INFORMATION :=
  [⟨0x130, none, 0⟩, ⟨0x160, some "System", 4⟩, ⟨0x140, some "osu!.exe", 4242⟩,
    ⟨0, some "explorer.exe", 3120⟩]

/-- A rational that a binary32 `float` holds exactly: `m * 2 ^ e` with a significand
below `2 ^ 24` and an exponent between -149 and 104. -/
def representable (q : ℚ) : Prop :=
  ∃ m e : ℤ, |m| < 2 ^ 24 ∧ -149 ≤ e ∧ e ≤ 104 ∧ q = m * (2 : ℚ) ^ e

/-- The properties of IEEE-754 binary32 arithmetic in round-to-nearest the proofs
rely on, `F` being the set of float values with every NaN counted as one value.
An operation on exactly held values whose exact result is representable and
not zero returns that result; the sign of a zero result is left open, so
`-0` and `+0` stay distinct values.  Negating a factor negates the product, and
adding a negated value is subtracting the value. -/
structure correctly_rounded {F : Type} (ops : float_ops F) : Prop where
  add_exact : ∀ a b, representable a → representable b → a + b ≠ 0 →
    representable (a + b) → ops.add (ops.lit a) (ops.lit b) = ops.lit (a + b)
  sub_exact : ∀ a b, representable a → representable b → a - b ≠ 0 →
    representable (a - b) → ops.sub (ops.lit a) (ops.lit b) = ops.lit (a - b)
  mul_exact : ∀ a b, representable a → representable b → a * b ≠ 0 →
    representable (a * b) → ops.mul (ops.lit a) (ops.lit b) = ops.lit (a * b)
  div_exact : ∀ a b, representable a → representable b → b ≠ 0 → a / b ≠ 0 →
    representable (a / b) → ops.div (ops.lit a) (ops.lit b) = ops.lit (a / b)
  neg_exact : ∀ a, representable a → a ≠ 0 → ops.neg (ops.lit a) = ops.lit (-a)
  neg_mul : ∀ x y, ops.mul (ops.neg x) y = ops.neg (ops.mul x y)
  add_neg : ∀ x y, ops.add x (ops.neg y) = ops.sub x y

/-- The values of an arithmetic with signed zeros: a sign bit and a magnitude (the
absolute value of the second field), or not-a-number. -/
inductive signed_value where
  | nan
  | val (negative : Bool) (magnitude : ℚ)
deriving DecidableEq

/-- The rational a sign bit and a magnitude stand for. -/
def signed_value.signed (negative : Bool) (magnitude : ℚ) : ℚ :=
  if negative then -|magnitude| else |magnitude|

/-- The value that holds a rational exactly; 0 becomes `+0`. -/
def signed_value.of_rat (q : ℚ) : signed_value := .val (decide (q < 0)) |q|

/-- Negation flips the sign bit, also of a zero. -/
def signed_value.neg : signed_value → signed_value
  | .nan => .nan
  | .val s m => .val (!s) m

/-- Exact addition; a zero sum is `-0` only when both terms are negative, as in
round-to-nearest. -/
def signed_value.add : signed_value → signed_value → signed_value
  | .val s m, .val t n =>
    if signed_value.signed s m + signed_value.signed t n = 0 then .val (s && t) 0
    else signed_value.of_rat (signed_value.signed s m + signed_value.signed t n)
  | _, _ => .nan

/-- Exact multiplication; the sign of the product is the exclusive or of the signs. -/
def signed_value.mul : signed_value → signed_value → signed_value
  | .val s m, .val t n => .val (xor s t) (|m| * |n|)
  | _, _ => .nan

/-- Exact division; a division by a zero gives `nan`, which stands for every result
that is not finite. -/
def signed_value.div : signed_value → signed_value → signed_value
  | .val s m, .val t n => if n = 0 then .nan else .val (xor s t) (|m| / |n|)
  | _, _ => .nan

/-- Conversion to an integer by truncation toward zero; `nan` gives 0. -/
def signed_value.to_int : signed_value → Int
  | .nan => 0
  | .val s m => if s then -Rat.floor |m| else Rat.floor |m|

/-- Exact arithmetic with signed zeros and a `nan`, a second instance of `float_ops`:
in it `-0` and `+0` are different values. -/
def signed_zero_ops : float_ops signed_value where
  add := signed_value.add
  sub := fun x y => signed_value.add x (signed_value.neg y)
  mul := signed_value.mul
  div := signed_value.div
  neg := signed_value.neg
  lit := signed_value.of_rat
  of_uint32 := fun n => signed_value.of_rat (n : ℚ)
  to_int := signed_value.to_int

/-! ## Lemmas on the binary search -/

theorem sorted_at {F : Type} {frames : List (replay_frame F)}
    (hs : SortedByTime frames) {i j : Nat} {a b : replay_frame F} (hij : i ≤ j)
    (ha : frames[i]? = some a) (hb : frames[j]? = some b) : a.time ≤ b.time := by
  rcases Nat.lt_or_eq_of_le hij with hlt | heq
  · obtain ⟨hi, rfl⟩ := List.getElem?_eq_some.mp ha
    obtain ⟨hj, rfl⟩ := List.getElem?_eq_some.mp hb
    exact (List.pairwise_iff_getElem.mp hs) i j hi hj hlt
  · subst heq
    rw [ha] at hb
    cases hb
    exact le_refl _

/-- The invariant of the binary search: everything before `first` is below `value`,
everything from `first + len` on is not. -/
theorem lower_bound_loop_spec {F : Type} (frames : List (replay_frame F)) (value : Int)
    (hs : SortedByTime frames) :
    ∀ (fuel first len : Nat), len ≤ fuel → first + len ≤ frames.length →
      (∀ i f, i < first → frames[i]? = some f → f.time < value) →
      (∀ i f, first + len ≤ i → frames[i]? = some f → value ≤ f.time) →
      lower_bound_loop frames value fuel first len ≤ frames.length ∧
      (∀ i f, i < lower_bound_loop frames value fuel first len →
        frames[i]? = some f → f.time < value) ∧
      (∀ i f, lower_bound_loop frames value fuel first len ≤ i →
        frames[i]? = some f → value ≤ f.time) := by
  intro fuel
  induction fuel with
  | zero =>
    intro first len hlen hbound hlo hhi
    have h0 : len = 0 := Nat.le_zero.mp hlen
    subst h0
    simp only [lower_bound_loop]
    exact ⟨by omega, hlo, fun i f hi hf => hhi i f (by omega) hf⟩
  | succ fuel ih =>
    intro first len hlen hbound hlo hhi
    by_cases h0 : len = 0
    · subst h0
      simp only [lower_bound_loop, if_true]
      exact ⟨by omega, hlo, fun i f hi hf => hhi i f (by omega) hf⟩
    · have hmid : first + len / 2 < frames.length := by
        have : len / 2 < len := Nat.div_lt_self (Nat.pos_of_ne_zero h0) (by decide)
        omega
      have hget : frames[first + len / 2]? = some frames[first + len / 2] :=
        List.getElem?_eq_getElem hmid
      simp only [lower_bound_loop, if_neg h0, hget]
      by_cases hc : (frames[first + len / 2]).time < value
      · simp only [if_pos hc]
        apply ih
        · omega
        · omega
        · intro i f hi hf
          have := sorted_at hs (show i ≤ first + len / 2 by omega) hf hget
          omega
        · intro i f hi hf
          exact hhi i f (by omega) hf
      · simp only [if_neg hc]
        apply ih
        · omega
        · omega
        · exact hlo
        · intro i f hi hf
          have := sorted_at hs hi hget hf
          omega

theorem lower_bound_spec {F : Type} (frames : List (replay_frame F)) (value : Int)
    (hs : SortedByTime frames) :
    lower_bound frames value ≤ frames.length ∧
    (∀ i f, i < lower_bound frames value → frames[i]? = some f → f.time < value) ∧
    (∀ i f, lower_bound frames value ≤ i → frames[i]? = some f → value ≤ f.time) := by
  unfold lower_bound
  apply lower_bound_loop_spec frames value hs
  · exact le_refl _
  · omega
  · intro i f hi
    omega
  · intro i f hi hf
    have := (List.getElem?_eq_some.mp hf).1
    omega

/-- A linear search finds the element at index `r` when no earlier element
satisfies the predicate and the element at `r`, if there is one, does. -/
theorem find_eq_at {α : Type} (q : α → Bool) :
    ∀ (l : List α) (r : Nat), (∀ i a, i < r → l[i]? = some a → q a = false) →
      (∀ a, l[r]? = some a → q a = true) → r ≤ l.length → l.find? q = l[r]?
  | [], r, _, _, _ => by simp
  | x :: xs, 0, _, hat, _ => by
    have := hat x (by simp)
    simp [List.find?, this]
  | x :: xs, r + 1, hbefore, hat, hr => by
    have hx : q x = false := hbefore 0 x (by omega) (by simp)
    simp only [List.find?, hx, List.getElem?_cons_succ]
    apply find_eq_at q xs r
    · intro i a hi ha
      exact hbefore (i + 1) a (by omega) (by simpa using ha)
    · intro a ha
      exact hat a (by simpa using ha)
    · simpa using hr

theorem seek_eq_find {F : Type} (frames : List (replay_frame F)) (audio_time : Int)
    (hs : SortedByTime frames) :
    seek frames audio_time = frames.find? (fun f => decide (audio_time ≤ f.time)) := by
  obtain ⟨hlen, hlo, hhi⟩ := lower_bound_spec frames audio_time hs
  unfold seek
  symm
  apply find_eq_at
  · intro i a hi ha
    have := hlo i a hi ha
    simp only [decide_eq_false_iff_not]
    omega
  · intro a ha
    have := hhi _ a (le_refl _) ha
    simpa using this
  · exact hlen

/-! ## The seek of the playback loop -/

/-- C1, as stated, fails: for the frame times 0, 10, 20, 30 (sorted ascending) the seek
of `update_replay` at audio time 15 selects the frame at time 20, while the last
frame whose time is at most 15 is the frame at time 10. -/
theorem seek_not_last_at_or_before :
    SortedByTime example_frames ∧
    (seek example_frames 15).map (fun f => f.time) = some 20 ∧
    (last_frame_at_or_before example_frames 15).map (fun f => f.time) = some 10 ∧
    seek example_frames 15 ≠ last_frame_at_or_before example_frames 15 := by
  refine ⟨by decide, by decide, by decide, by decide⟩

/-- C1, amended: for every frame sequence sorted ascending by time and every audio
time, the frame the playback loop selects is the first frame whose time is at
least the audio time (no frame when there is none); for the frame times
0, 10, 20, 30, seeking 15 selects the frame at time 20 and seeking 0 the frame
at time 0. -/
theorem seek_first_at_or_after {F : Type} (frames : List (replay_frame F)) (audio_time : Int)
    (hs : SortedByTime frames) :
    seek frames audio_time = frames.find? (fun f => decide (audio_time ≤ f.time)) ∧
    seek example_frames 15 = example_frames[2]? ∧
    seek example_frames 0 = example_frames[0]? :=
  ⟨seek_eq_find frames audio_time hs, by decide, by decide⟩

theorem seek_first_at_or_after_witness :
    SortedByTime example_frames ∧
    (seek example_frames 15 =
        example_frames.find? (fun f => decide ((15 : Int) ≤ f.time)) ∧
      seek example_frames 15 = example_frames[2]? ∧
      seek example_frames 0 = example_frames[0]?) :=
  ⟨by decide, seek_first_at_or_after example_frames 15 (by decide)⟩

theorem getLast_is_latest {F : Type} {frames : List (replay_frame F)}
    (hs : SortedByTime frames) {last f : replay_frame F}
    (hlast : frames.getLast? = some last) (hf : f ∈ frames) : f.time ≤ last.time := by
  rw [List.getLast?_eq_getElem?] at hlast
  obtain ⟨i, hi, rfl⟩ := List.getElem_of_mem hf
  exact sorted_at hs (show i ≤ frames.length - 1 by omega) (List.getElem?_eq_getElem hi) hlast

/-- C2: for every frame sequence sorted ascending by time and every audio time
strictly greater than the time of the last frame, the seek of `update_replay`
yields no frame (the iterator is `frames.end()`), and an iteration that reads
the mode `play` and that audio time leaves the loop without any input call. -/
theorem seek_past_last_frame {F : Type} (ops : float_ops F) (ks : key_state)
    (ptrs : scan_state) (frames : List (replay_frame F)) (last : replay_frame F)
    (mem : Memory) (rest : List Memory) (audio_time : Int)
    (hs : SortedByTime frames) (hlast : frames.getLast? = some last)
    (hgt : last.time < audio_time)
    (hmode : read_mode mem ptrs.mode_pointer = some osu_modes_play)
    (htime : read_time mem ptrs.time_pointer = audio_time) :
    seek frames audio_time = none ∧
    lower_bound frames audio_time = frames.length ∧
    update_replay ops ks ptrs (some frames) (mem :: rest) = ⟨[], .finished, 1⟩ := by
  have hseek : seek frames audio_time = none := by
    rw [seek_eq_find frames audio_time hs, List.find?_eq_none]
    intro f hf
    have := getLast_is_latest hs hlast hf
    simp only [decide_eq_true_eq]
    omega
  refine ⟨hseek, ?_, ?_⟩
  · have hle := (lower_bound_spec frames audio_time hs).1
    have hge : frames.length ≤ lower_bound frames audio_time := by
      unfold seek at hseek
      exact List.getElem?_eq_none_iff.mp hseek
    omega
  · simp [update_replay, hmode, htime, hseek]

theorem seek_past_last_frame_witness :
    SortedByTime example_frames ∧
    example_frames.getLast? = some ⟨30, ⟨512, 384⟩, 16⟩ ∧
    read_mode (target 31 2) target_pointers.mode_pointer = some osu_modes_play ∧
    read_time (target 31 2) target_pointers.time_pointer = 31 ∧
    seek example_frames 31 = none ∧
    lower_bound example_frames 31 = example_frames.length ∧
    update_replay exact_ops osu_keys target_pointers (some example_frames)
      [target 31 2] = ⟨[], .finished, 1⟩ :=
  ⟨by decide, by decide, by decide, by decide,
    seek_past_last_frame exact_ops osu_keys target_pointers example_frames
      ⟨30, ⟨512, 384⟩, 16⟩ (target 31 2) [] 31 (by decide) (by decide) (by decide)
      (by decide) (by decide)⟩

/-! ## The playback loop -/

theorem check_key_eq (keys flag vk : Nat) :
    check_key keys flag vk =
      .keybd_event vk (if keys &&& flag ≠ 0 then 0 else 0x2) := by
  unfold check_key KEYEVENTF_KEYUP
  split <;> rfl

theorem update_replay_emit {F : Type} (ops : float_ops F) (ks : key_state)
    (ptrs : scan_state) (frames : List (replay_frame F)) (f : replay_frame F)
    (size : vector2f F) (mem : Memory) (rest : List Memory)
    (hmode : read_mode mem ptrs.mode_pointer = some osu_modes_play)
    (hseek : seek frames (read_time mem ptrs.time_pointer) = some f)
    (hsize : read_window_size ops mem ptrs.gf_ptr_ptr = some size) :
    update_replay ops ks ptrs (some frames) (mem :: rest) =
      ⟨frame_events ops ks f size ++ (update_replay ops ks ptrs (some frames) rest).events,
        (update_replay ops ks ptrs (some frames) rest).status,
        (update_replay ops ks ptrs (some frames) rest).iterations + 1⟩ := by
  simp [update_replay, hmode, hseek, hsize, frame_events, check_key_eq, VK_LBUTTON, VK_RBUTTON]

/-- C7: in an iteration of `update_replay` in which the mode read is `play`, the seek
yields a frame `f` and the window size is read, the loop makes exactly five key
calls, for `VK_LBUTTON`, `VK_RBUTTON`, `Z`, `X` and `C` in this order, each a
press (flags 0) when the frame's bit for the channel is set and a release
(`KEYEVENTF_KEYUP`) otherwise, then one `SetCursorPos` at the scaled position of
`f` under that window size, each coordinate converted to an integer; the calls
depend on nothing but the frame and the window size. -/
theorem tick_emits_frame_state {F : Type} (ops : float_ops F) (ks : key_state)
    (ptrs : scan_state) (frames : List (replay_frame F)) (f : replay_frame F)
    (size : vector2f F) (mem : Memory) (rest : List Memory)
    (hmode : read_mode mem ptrs.mode_pointer = some osu_modes_play)
    (hseek : seek frames (read_time mem ptrs.time_pointer) = some f)
    (hsize : read_window_size ops mem ptrs.gf_ptr_ptr = some size) :
    (update_replay ops ks ptrs (some frames) (mem :: rest)).events =
      [.keybd_event VK_LBUTTON (if f.keys &&& ks.m1 ≠ 0 then 0 else KEYEVENTF_KEYUP),
       .keybd_event VK_RBUTTON (if f.keys &&& ks.m2 ≠ 0 then 0 else KEYEVENTF_KEYUP),
       .keybd_event 'Z'.toNat (if f.keys &&& ks.k1 ≠ 0 then 0 else KEYEVENTF_KEYUP),
       .keybd_event 'X'.toNat (if f.keys &&& ks.k2 ≠ 0 then 0 else KEYEVENTF_KEYUP),
       .keybd_event 'C'.toNat (if f.keys &&& ks.smoke ≠ 0 then 0 else KEYEVENTF_KEYUP),
       .SetCursorPos (ops.to_int (scale ops size f.position).x)
         (ops.to_int (scale ops size f.position).y)]
      ++ (update_replay ops ks ptrs (some frames) rest).events := by
  rw [update_replay_emit ops ks ptrs frames f size mem rest hmode hseek hsize]
  simp [frame_events, VK_LBUTTON, VK_RBUTTON, KEYEVENTF_KEYUP]

theorem tick_emits_frame_state_witness :
    read_mode (target 15 2) target_pointers.mode_pointer = some osu_modes_play ∧
    seek example_frames (read_time (target 15 2) target_pointers.time_pointer) =
      some ⟨20, ⟨300, 200⟩, 10⟩ ∧
    read_window_size exact_ops (target 15 2) target_pointers.gf_ptr_ptr = some ⟨800, 600⟩ ∧
    (update_replay exact_ops osu_keys target_pointers (some example_frames)
        [target 15 2]).events =
      [.keybd_event VK_LBUTTON (if 10 &&& osu_keys.m1 ≠ 0 then 0 else KEYEVENTF_KEYUP),
       .keybd_event VK_RBUTTON (if 10 &&& osu_keys.m2 ≠ 0 then 0 else KEYEVENTF_KEYUP),
       .keybd_event 'Z'.toNat (if 10 &&& osu_keys.k1 ≠ 0 then 0 else KEYEVENTF_KEYUP),
       .keybd_event 'X'.toNat (if 10 &&& osu_keys.k2 ≠ 0 then 0 else KEYEVENTF_KEYUP),
       .keybd_event 'C'.toNat (if 10 &&& osu_keys.smoke ≠ 0 then 0 else KEYEVENTF_KEYUP),
       .SetCursorPos (exact_ops.to_int (scale exact_ops ⟨800, 600⟩ ⟨300, 200⟩).x)
         (exact_ops.to_int (scale exact_ops ⟨800, 600⟩ ⟨300, 200⟩).y)]
      ++ (update_replay exact_ops osu_keys target_pointers (some example_frames) []).events :=
  ⟨by decide, by decide, by decide,
    tick_emits_frame_state exact_ops osu_keys target_pointers example_frames
      ⟨20, ⟨300, 200⟩, 10⟩ ⟨800, 600⟩ (target 15 2) [] (by decide) (by decide) (by decide)⟩

/-- C8: for three frames with strictly increasing times, a mode that reads `play`
in every iteration and an audio time that reads the time of frame 1, of frame 2,
of frame 3 and then a greater value, `update_replay` makes the key and cursor
calls of frame 1, then of frame 2, then of frame 3, and leaves the loop in the
fourth iteration with no further call, whatever the later snapshots hold. -/
theorem three_frame_playback {F : Type} (ops : float_ops F) (ks : key_state)
    (ptrs : scan_state) (f1 f2 f3 : replay_frame F) (s1 s2 s3 : vector2f F)
    (m1 m2 m3 m4 : Memory) (rest : List Memory)
    (h12 : f1.time < f2.time) (h23 : f2.time < f3.time)
    (hmode1 : read_mode m1 ptrs.mode_pointer = some osu_modes_play)
    (hmode2 : read_mode m2 ptrs.mode_pointer = some osu_modes_play)
    (hmode3 : read_mode m3 ptrs.mode_pointer = some osu_modes_play)
    (hmode4 : read_mode m4 ptrs.mode_pointer = some osu_modes_play)
    (htime1 : read_time m1 ptrs.time_pointer = f1.time)
    (htime2 : read_time m2 ptrs.time_pointer = f2.time)
    (htime3 : read_time m3 ptrs.time_pointer = f3.time)
    (htime4 : f3.time < read_time m4 ptrs.time_pointer)
    (hsize1 : read_window_size ops m1 ptrs.gf_ptr_ptr = some s1)
    (hsize2 : read_window_size ops m2 ptrs.gf_ptr_ptr = some s2)
    (hsize3 : read_window_size ops m3 ptrs.gf_ptr_ptr = some s3) :
    update_replay ops ks ptrs (some [f1, f2, f3]) (m1 :: m2 :: m3 :: m4 :: rest) =
      ⟨frame_events ops ks f1 s1 ++ frame_events ops ks f2 s2 ++ frame_events ops ks f3 s3,
        .finished, 4⟩ := by
  have hs : SortedByTime [f1, f2, f3] := by
    simp only [SortedByTime, List.pairwise_cons, List.mem_cons, List.mem_singleton,
      forall_eq_or_imp, forall_eq, List.not_mem_nil, false_implies, implies_true,
      List.Pairwise.nil, and_true]
    omega
  have hseek1 : seek [f1, f2, f3] (read_time m1 ptrs.time_pointer) = some f1 := by
    rw [seek_eq_find _ _ hs, htime1]
    simp [List.find?]
  have hseek2 : seek [f1, f2, f3] (read_time m2 ptrs.time_pointer) = some f2 := by
    rw [seek_eq_find _ _ hs, htime2]
    have : ¬ f2.time ≤ f1.time := by omega
    simp [List.find?, this]
  have hseek3 : seek [f1, f2, f3] (read_time m3 ptrs.time_pointer) = some f3 := by
    rw [seek_eq_find _ _ hs, htime3]
    have ha : ¬ f3.time ≤ f1.time := by omega
    have hb : ¬ f3.time ≤ f2.time := by omega
    simp [List.find?, ha, hb]
  have hseek4 : seek [f1, f2, f3] (read_time m4 ptrs.time_pointer) = none := by
    rw [seek_eq_find _ _ hs]
    have ha : ¬ read_time m4 ptrs.time_pointer ≤ f1.time := by omega
    have hb : ¬ read_time m4 ptrs.time_pointer ≤ f2.time := by omega
    have hc : ¬ read_time m4 ptrs.time_pointer ≤ f3.time := by omega
    simp [List.find?, ha, hb, hc]
  have hend : update_replay ops ks ptrs (some [f1, f2, f3]) (m4 :: rest) =
      ⟨[], .finished, 1⟩ := by
    simp [update_replay, hmode4, hseek4]
  rw [update_replay_emit ops ks ptrs _ f1 s1 m1 _ hmode1 hseek1 hsize1,
    update_replay_emit ops ks ptrs _ f2 s2 m2 _ hmode2 hseek2 hsize2,
    update_replay_emit ops ks ptrs _ f3 s3 m3 _ hmode3 hseek3 hsize3, hend]
  simp

theorem three_frame_playback_witness :
    update_replay exact_ops osu_keys target_pointers (some three_frames)
        [target 10 2, target 20 2, target 30 2, target 31 2, target 10 2] =
      ⟨frame_events exact_ops osu_keys ⟨10, ⟨256, 192⟩, 5⟩ ⟨800, 600⟩ ++
        frame_events exact_ops osu_keys ⟨20, ⟨0, 0⟩, 2⟩ ⟨800, 600⟩ ++
        frame_events exact_ops osu_keys ⟨30, ⟨512, 384⟩, 24⟩ ⟨800, 600⟩, .finished, 4⟩ :=
  three_frame_playback exact_ops osu_keys target_pointers ⟨10, ⟨256, 192⟩, 5⟩ ⟨20, ⟨0, 0⟩, 2⟩
    ⟨30, ⟨512, 384⟩, 24⟩ ⟨800, 600⟩ ⟨800, 600⟩ ⟨800, 600⟩ (target 10 2) (target 20 2)
    (target 30 2) (target 31 2) [target 10 2] (by decide) (by decide) (by decide) (by decide)
    (by decide) (by decide) (by decide) (by decide) (by decide) (by decide) (by decide)
    (by decide) (by decide)

/-! ## The memory scan -/

theorem signature_text_injective (s t : signature) (h : s.text = t.text) : s = t := by
  cases s <;> cases t <;> first | rfl | (exact absurd h (by decide))

theorem frozen_refl (s : signature) (st : scan_state) : frozen s st st :=
  ⟨rfl, [], by simp, by simp⟩

theorem frozen_trans {s : signature} {a b c : scan_state} (hab : frozen s a b)
    (hbc : frozen s b c) : frozen s a c := by
  obtain ⟨h1, e1, he1, hn1⟩ := hab
  obtain ⟨h2, e2, he2, hn2⟩ := hbc
  refine ⟨h2.trans h1, e1 ++ e2, by rw [he2, he1, List.append_assoc], ?_⟩
  intro e he
  rcases List.mem_append.mp he with h | h
  · exact hn1 e h
  · exact hn2 e h

theorem scan_time_frozen (find : Finder) (mem : Memory) (p : Nat) (data : List Nat)
    (st : scan_state) (s : signature) (h : st.pointer s ≠ 0) :
    frozen s st (scan_time find mem p data st) := by
  unfold scan_time
  by_cases h0 : st.time_pointer = 0
  · have hs : s ≠ .time := by
      intro hs
      subst hs
      exact h h0
    have htext : time_signature ≠ s.text := fun ht =>
      hs (signature_text_injective s .time ht.symm)
    rw [if_pos h0]
    cases resolve find mem p data time_signature 0x1E with
    | none =>
      refine ⟨by cases s <;> simp_all [scan_state.pointer], [(time_signature, p)], rfl, ?_⟩
      simpa using htext
    | some v =>
      refine ⟨by cases s <;> simp_all [scan_state.pointer], [(time_signature, p)], rfl, ?_⟩
      simpa using htext
  · rw [if_neg h0]
    exact frozen_refl s st

theorem scan_mode_frozen (find : Finder) (mem : Memory) (p : Nat) (data : List Nat)
    (st : scan_state) (s : signature) (h : st.pointer s ≠ 0) :
    frozen s st (scan_mode find mem p data st) := by
  unfold scan_mode
  by_cases h0 : st.mode_pointer = 0
  · have hs : s ≠ .mode := by
      intro hs
      subst hs
      exact h h0
    have htext : mode_signature ≠ s.text := fun ht =>
      hs (signature_text_injective s .mode ht.symm)
    rw [if_pos h0]
    cases resolve find mem p data mode_signature 0x1 with
    | none =>
      refine ⟨by cases s <;> simp_all [scan_state.pointer], [(mode_signature, p)], rfl, ?_⟩
      simpa using htext
    | some v =>
      refine ⟨by cases s <;> simp_all [scan_state.pointer], [(mode_signature, p)], rfl, ?_⟩
      simpa using htext
  · rw [if_neg h0]
    exact frozen_refl s st

theorem scan_gamefield_frozen (find : Finder) (mem : Memory) (p : Nat) (data : List Nat)
    (st : scan_state) (s : signature) (h : st.pointer s ≠ 0) :
    frozen s st (scan_gamefield find mem p data st) := by
  unfold scan_gamefield
  by_cases h0 : st.gf_ptr_ptr = 0
  · have hs : s ≠ .gamefield := by
      intro hs
      subst hs
      exact h h0
    have htext : gamefield_signature ≠ s.text := fun ht =>
      hs (signature_text_injective s .gamefield ht.symm)
    rw [if_pos h0]
    cases resolve find mem p data gamefield_signature 0x2 with
    | none =>
      refine ⟨by cases s <;> simp_all [scan_state.pointer], [(gamefield_signature, p)], rfl, ?_⟩
      simpa using htext
    | some v =>
      refine ⟨by cases s <;> simp_all [scan_state.pointer], [(gamefield_signature, p)], rfl, ?_⟩
      simpa using htext
  · rw [if_neg h0]
    exact frozen_refl s st

theorem scan_data_frozen (find : Finder) (mem : Memory) (p : Nat) (data : List Nat)
    (st : scan_state) (s : signature) (h : st.pointer s ≠ 0) :
    frozen s st (scan_data find mem p data st) := by
  unfold scan_data
  have h1 := scan_time_frozen find mem p data st s h
  have h1' : (scan_time find mem p data st).pointer s ≠ 0 := by rw [h1.1]; exact h
  have h2 := scan_mode_frozen find mem p data _ s h1'
  have h2' : (scan_mode find mem p data (scan_time find mem p data st)).pointer s ≠ 0 := by
    rw [h2.1]; exact h1'
  have h3 := scan_gamefield_frozen find mem p data _ s h2'
  exact frozen_trans (frozen_trans h1 h2) h3

theorem scan_loop_frozen (find : Finder) (mem : Memory) (s : signature) :
    ∀ (regions : List MEMORY_BASIC_INFORMATION) (p : Nat) (st : scan_state),
      st.pointer s ≠ 0 → frozen s st (scan_loop find mem regions p st)
  | [], p, st, _ => by
    simp only [scan_loop]
    exact frozen_refl s st
  | inf :: rest, p, st, h => by
    simp only [scan_loop]
    split
    · exact scan_loop_frozen find mem s rest _ st h
    · split
      · exact scan_loop_frozen find mem s rest _ st h
      · rename_i data _
        have hd := scan_data_frozen find mem p data st s h
        split
        · exact hd
        · refine frozen_trans hd (scan_loop_frozen find mem s rest _ _ ?_)
          rw [hd.1]
          exact h

/-- C4, as stated, fails: in `target_two_pages` the time signature matches in the
first code page at offset 0, the dereference of its pointer slot returns 0 and
`time_pointer` is 0 after that page; the second code page is then searched for
the time signature again and `time_pointer` ends as `0x20000`, the value
resolved from the second match. -/
theorem first_match_overridden :
    (ReadProcessMemory target_two_pages 0x10000 0x1000).map (ctfp_find time_signature) =
      some (some 0) ∧
    read_u32 target_two_pages (0x10000 + 0 + 0x1E) = some 0 ∧
    scan_memory ctfp_find target_two_pages [⟨0x10000, 0x1, 0x10000⟩, ⟨0x1000, 0x40, 0x1000⟩] =
      ⟨0, 0x50000, 0x60000,
        [(time_signature, 0x10000), (mode_signature, 0x10000),
          (gamefield_signature, 0x10000)]⟩ ∧
    scan_memory ctfp_find target_two_pages two_page_regions =
      ⟨0x20000, 0x50000, 0x60000,
        [(time_signature, 0x10000), (mode_signature, 0x10000),
          (gamefield_signature, 0x10000), (time_signature, 0x11000)]⟩ := by
  refine ⟨by decide!, by decide!, by decide!, by decide!⟩

/-- C4, amended: for every sequence of memory regions, once the pointer of one of the
three signatures is nonzero (it starts at 0 and only a match assigns it), no
later region is searched for that signature and the pointer is never changed
for the rest of the scan. -/
theorem nonzero_pointer_never_changes (find : Finder) (mem : Memory)
    (regions : List MEMORY_BASIC_INFORMATION) (p : Nat) (st : scan_state) (s : signature)
    (h : st.pointer s ≠ 0) :
    (scan_loop find mem regions p st).pointer s = st.pointer s ∧
    ∃ extra, (scan_loop find mem regions p st).searched = st.searched ++ extra ∧
      ∀ e ∈ extra, e.1 ≠ s.text :=
  scan_loop_frozen find mem s regions p st h

theorem nonzero_pointer_never_changes_witness :
    (⟨0, 0x50000, 0, []⟩ : scan_state).pointer .mode ≠ 0 ∧
    ((scan_loop ctfp_find target_two_pages two_page_regions 0
        ⟨0, 0x50000, 0, []⟩).pointer .mode =
      (⟨0, 0x50000, 0, []⟩ : scan_state).pointer .mode ∧
    ∃ extra, (scan_loop ctfp_find target_two_pages two_page_regions 0
        ⟨0, 0x50000, 0, []⟩).searched =
        (⟨0, 0x50000, 0, []⟩ : scan_state).searched ++ extra ∧
      ∀ e ∈ extra, e.1 ≠ signature.mode.text) :=
  ⟨by decide, nonzero_pointer_never_changes ctfp_find target_two_pages two_page_regions 0
    ⟨0, 0x50000, 0, []⟩ .mode (by decide)⟩

/-- C5: a region that is not committed, or whose protection is not exactly
`PAGE_EXECUTE_READWRITE`, or whose bytes cannot be read, is skipped: the
iteration leaves `time_pointer`, `mode_pointer` and `gf_ptr_ptr` unchanged,
searches for nothing, and the scan goes on with the next region. -/
theorem ineligible_region_skipped (find : Finder) (mem : Memory) (p : Nat)
    (inf : MEMORY_BASIC_INFORMATION) (rest : List MEMORY_BASIC_INFORMATION) (st : scan_state)
    (h : inf.State &&& MEM_COMMIT = 0 ∨ inf.Protect ≠ PAGE_EXECUTE_READWRITE ∨
      ReadProcessMemory mem p inf.RegionSize = none) :
    scan_region find mem p inf st = st ∧
    scan_loop find mem (inf :: rest) p st = scan_loop find mem rest (p + inf.RegionSize) st := by
  unfold scan_region
  simp only [scan_loop]
  by_cases h1 : inf.State &&& MEM_COMMIT = 0 ∨ inf.Protect ≠ PAGE_EXECUTE_READWRITE
  · simp [if_pos h1]
  · have h2 : ReadProcessMemory mem p inf.RegionSize = none := by
      rcases h with h | h | h
      · exact absurd (Or.inl h) h1
      · exact absurd (Or.inr h) h1
      · exact h
    simp [if_neg h1, h2]

theorem ineligible_region_skipped_witness :
    ((⟨0x10000, 0x1, 0x10000⟩ : MEMORY_BASIC_INFORMATION).State &&& MEM_COMMIT = 0 ∨
      (⟨0x10000, 0x1, 0x10000⟩ : MEMORY_BASIC_INFORMATION).Protect ≠ PAGE_EXECUTE_READWRITE ∨
      ReadProcessMemory (target 15 2) 0 0x10000 = none) ∧
    (scan_region ctfp_find (target 15 2) 0 ⟨0x10000, 0x1, 0x10000⟩ ⟨0, 0, 0, []⟩ =
        ⟨0, 0, 0, []⟩ ∧
      scan_loop ctfp_find (target 15 2) [⟨0x10000, 0x1, 0x10000⟩, ⟨0x1000, 0x40, 0x1000⟩] 0
          ⟨0, 0, 0, []⟩ =
        scan_loop ctfp_find (target 15 2) [⟨0x1000, 0x40, 0x1000⟩] (0 + 0x10000)
          ⟨0, 0, 0, []⟩) :=
  ⟨Or.inl (by decide),
    ineligible_region_skipped ctfp_find (target 15 2) 0 ⟨0x10000, 0x1, 0x10000⟩
      [⟨0x1000, 0x40, 0x1000⟩] ⟨0, 0, 0, []⟩ (Or.inl (by decide))⟩

theorem some_getD_of_isSome {α : Type} (x : Option α) (d : α) (h : x.isSome = true) :
    x = some (x.getD d) := by
  cases x with
  | none => simp at h
  | some a => rfl

theorem scan_region_eq_scan_data (find : Finder) (mem : Memory) (p : Nat)
    (inf : MEMORY_BASIC_INFORMATION) (st : scan_state) (data : List Nat)
    (hc : inf.State &&& MEM_COMMIT ≠ 0) (hp : inf.Protect = PAGE_EXECUTE_READWRITE)
    (hr : ReadProcessMemory mem p inf.RegionSize = some data) :
    scan_region find mem p inf st = scan_data find mem p data st := by
  unfold scan_region
  simp [scan_loop, hc, hp, hr]

theorem resolve_eq (find : Finder) (mem : Memory) (p : Nat) (data : List Nat)
    (sig : String) (k o v : Nat) (hfind : find sig data = some o)
    (hread : read_u32 mem ((p + o + k) % 2 ^ 32) = some v) :
    resolve find mem p data sig k = some v := by
  have e : o + k + p = p + o + k := by omega
  unfold resolve translate
  rw [hfind]
  simp only [e, hread]

theorem scan_time_pointers (find : Finder) (mem : Memory) (p : Nat) (data : List Nat)
    (st : scan_state) :
    (scan_time find mem p data st).mode_pointer = st.mode_pointer ∧
    (scan_time find mem p data st).gf_ptr_ptr = st.gf_ptr_ptr := by
  unfold scan_time
  split
  · split <;> exact ⟨rfl, rfl⟩
  · exact ⟨rfl, rfl⟩

theorem scan_mode_pointers (find : Finder) (mem : Memory) (p : Nat) (data : List Nat)
    (st : scan_state) :
    (scan_mode find mem p data st).time_pointer = st.time_pointer ∧
    (scan_mode find mem p data st).gf_ptr_ptr = st.gf_ptr_ptr := by
  unfold scan_mode
  split
  · split <;> exact ⟨rfl, rfl⟩
  · exact ⟨rfl, rfl⟩

theorem scan_gamefield_pointers (find : Finder) (mem : Memory) (p : Nat) (data : List Nat)
    (st : scan_state) :
    (scan_gamefield find mem p data st).time_pointer = st.time_pointer ∧
    (scan_gamefield find mem p data st).mode_pointer = st.mode_pointer := by
  unfold scan_gamefield
  split
  · split <;> exact ⟨rfl, rfl⟩
  · exact ⟨rfl, rfl⟩

/-- C6: when a still-unresolved signature matches in an eligible region with base
address `p` at buffer offset `o`, and the read of the pointer slot succeeds, the
pointer after that region is the 32-bit value `v` stored in the target at
address `(p + o + k) % 2 ^ 32`, with `k = 0x1E` for the time signature, `0x1` for
the mode signature and `0x2` for the gamefield signature: one dereference. -/
theorem resolved_pointer_is_slot_value (find : Finder) (mem : Memory) (p : Nat)
    (inf : MEMORY_BASIC_INFORMATION) (st : scan_state) (data : List Nat) (s : signature)
    (o v : Nat)
    (hc : inf.State &&& MEM_COMMIT ≠ 0) (hp : inf.Protect = PAGE_EXECUTE_READWRITE)
    (hr : ReadProcessMemory mem p inf.RegionSize = some data)
    (hun : st.pointer s = 0)
    (hfind : find s.text data = some o)
    (hread : read_u32 mem ((p + o + s.offset) % 2 ^ 32) = some v) :
    (scan_region find mem p inf st).pointer s = v ∧
    signature.time.offset = 0x1E ∧ signature.mode.offset = 0x1 ∧
    signature.gamefield.offset = 0x2 := by
  refine ⟨?_, rfl, rfl, rfl⟩
  rw [scan_region_eq_scan_data find mem p inf st data hc hp hr]
  unfold scan_data
  cases s with
  | time =>
    have hres := resolve_eq find mem p data time_signature 0x1E o v hfind hread
    have h0 : st.time_pointer = 0 := hun
    simp only [scan_state.pointer]
    rw [(scan_gamefield_pointers find mem p data _).1, (scan_mode_pointers find mem p data _).1]
    simp [scan_time, h0, hres]
  | mode =>
    have hres := resolve_eq find mem p data mode_signature 0x1 o v hfind hread
    have h0 : (scan_time find mem p data st).mode_pointer = 0 := by
      rw [(scan_time_pointers find mem p data st).1]
      exact hun
    simp only [scan_state.pointer]
    rw [(scan_gamefield_pointers find mem p data _).2]
    simp [scan_mode, h0, hres]
  | gamefield =>
    have hres := resolve_eq find mem p data gamefield_signature 0x2 o v hfind hread
    have h0 : (scan_mode find mem p data (scan_time find mem p data st)).gf_ptr_ptr = 0 := by
      rw [(scan_mode_pointers find mem p data _).2, (scan_time_pointers find mem p data st).2]
      exact hun
    simp only [scan_state.pointer]
    simp [scan_gamefield, h0, hres]

theorem resolved_pointer_is_slot_value_witness :
    (scan_region ctfp_find (target 15 2) 0x10000 ⟨0x1000, 0x40, 0x1000⟩
        ⟨0, 0, 0, []⟩).pointer .mode = 0x50000 ∧
    signature.time.offset = 0x1E ∧ signature.mode.offset = 0x1 ∧
    signature.gamefield.offset = 0x2 :=
  resolved_pointer_is_slot_value ctfp_find (target 15 2) 0x10000 ⟨0x1000, 0x40, 0x1000⟩
    ⟨0, 0, 0, []⟩ ((ReadProcessMemory (target 15 2) 0x10000 0x1000).getD []) .mode 0x22
    0x50000 (by decide) (by decide) (some_getD_of_isSome _ [] (by decide!)) (by decide)
    (by decide!) (by decide!)

/-! ## The coordinate transform -/

theorem representable_int (n : ℤ) (h : |n| < 2 ^ 24) : representable (n : ℚ) :=
  ⟨n, 0, h, by norm_num, by norm_num, by simp⟩

theorem representable_half : representable (1 / 2) :=
  ⟨1, -1, by norm_num, by norm_num, by norm_num, by norm_num⟩

theorem representable_five_quarters : representable (5 / 4) :=
  ⟨5, -2, by norm_num, by norm_num, by norm_num, by norm_num⟩

theorem exact_ops_correctly_rounded : correctly_rounded exact_ops where
  add_exact := fun _ _ _ _ _ _ => rfl
  sub_exact := fun _ _ _ _ _ _ => rfl
  mul_exact := fun _ _ _ _ _ _ => rfl
  div_exact := fun _ _ _ _ _ _ _ => rfl
  neg_exact := fun _ _ _ => rfl
  neg_mul := fun x y => by simp [exact_ops]
  add_neg := fun x y => by simp [exact_ops, sub_eq_add_neg]

theorem signed_of_rat (a : ℚ) : signed_value.signed (decide (a < 0)) |a| = a := by
  unfold signed_value.signed
  by_cases h : a < 0
  · simp [h, abs_of_neg h]
  · simp [h, abs_of_nonneg (not_lt.mp h)]

theorem signed_neg_of_rat (b : ℚ) : signed_value.signed (!decide (b < 0)) |b| = -b := by
  unfold signed_value.signed
  by_cases h : b < 0
  · simp [h, abs_of_neg h]
  · simp [h, abs_of_nonneg (not_lt.mp h)]

theorem xor_sign_mul (a b : ℚ) (h : a * b ≠ 0) :
    xor (decide (a < 0)) (decide (b < 0)) = decide (a * b < 0) := by
  have ha : a ≠ 0 := left_ne_zero_of_mul h
  have hb : b ≠ 0 := right_ne_zero_of_mul h
  rcases lt_or_gt_of_ne ha with ha | ha <;> rcases lt_or_gt_of_ne hb with hb | hb
  · simp [ha, hb, not_lt.mpr (mul_pos_of_neg_of_neg ha hb).le]
  · simp [ha, not_lt.mpr hb.le, mul_neg_of_neg_of_pos ha hb]
  · simp [hb, not_lt.mpr ha.le, mul_neg_of_pos_of_neg ha hb]
  · simp [not_lt.mpr ha.le, not_lt.mpr hb.le, not_lt.mpr (mul_pos ha hb).le]

theorem signed_zero_ops_correctly_rounded : correctly_rounded signed_zero_ops where
  add_exact := fun a b _ _ h0 _ => by
    simp only [signed_zero_ops, signed_value.of_rat, signed_value.add, signed_of_rat, if_neg h0]
  sub_exact := fun a b _ _ h0 _ => by
    have h1 : a + -b ≠ 0 := by rwa [← sub_eq_add_neg]
    simp only [signed_zero_ops, signed_value.of_rat, signed_value.neg, signed_value.add,
      signed_of_rat, signed_neg_of_rat, if_neg h1, sub_eq_add_neg]
  mul_exact := fun a b _ _ h0 _ => by
    simp only [signed_zero_ops, signed_value.of_rat, signed_value.mul, abs_abs,
      xor_sign_mul a b h0, abs_mul]
  div_exact := fun a b _ _ hb h0 _ => by
    have hinv : a * b⁻¹ ≠ 0 := by rwa [← div_eq_mul_inv]
    have hsign : decide (b < 0) = decide (b⁻¹ < 0) := by simp
    have habs : |b| ≠ 0 := abs_ne_zero.mpr hb
    simp only [signed_zero_ops, signed_value.of_rat, signed_value.div, abs_abs, if_neg habs,
      hsign, xor_sign_mul a b⁻¹ hinv, div_eq_mul_inv, abs_mul, abs_inv]
  neg_exact := fun a _ h0 => by
    have hs : (!decide (a < 0)) = decide (-a < 0) := by
      rcases lt_or_gt_of_ne h0 with h | h
      · simp [h, h.le]
      · simp [h, not_lt.mpr h.le]
    simp only [signed_zero_ops, signed_value.of_rat, signed_value.neg, hs, abs_neg]
  neg_mul := fun x y => by
    cases x <;> cases y <;> simp [signed_zero_ops, signed_value.neg, signed_value.mul]
  add_neg := fun _ _ => rfl

/-- In `signed_zero_ops`, an instance of `correctly_rounded`, the negation of the
literal 0 is `-0`, a value different from the literal 0. -/
theorem signed_zero_ops_negative_zero :
    signed_zero_ops.neg (signed_zero_ops.lit 0) = .val true 0 ∧
    signed_zero_ops.lit 0 = .val false 0 ∧
    signed_zero_ops.neg (signed_zero_ops.lit 0) ≠ signed_zero_ops.lit 0 := by
  refine ⟨by decide, by decide, by decide⟩

/-- C9: for every playfield position `(px, py)` and window size `(width, height)`,
`scale` returns `(screen_x, screen_y)` with `ratio = height / 480`,
`screen_x = 512 * ratio * (px / 512) + (width - 512 * ratio) * 0.5` and
`screen_y = 384 * ratio * (py / 384) + ((height - 384 * ratio) / 4 * 3 - 16 * ratio)`,
every operation a `float` operation in this order; for the position (256, 192)
and the size 800 by 600 the result is exactly (400, 310).  This holds in every
arithmetic with the properties `correctly_rounded`, which leave the sign of a
zero result open. -/
theorem scale_formula {F : Type} (ops : float_ops F) (h : correctly_rounded ops)
    (px py width height : F) :
    scale ops ⟨width, height⟩ ⟨px, py⟩ =
      ⟨ops.add
          (ops.mul (ops.mul (ops.lit 512) (ops.div height (ops.lit 480)))
            (ops.div px (ops.lit 512)))
          (ops.mul (ops.sub width (ops.mul (ops.lit 512) (ops.div height (ops.lit 480))))
            (ops.lit (1 / 2))),
        ops.add
          (ops.mul (ops.mul (ops.lit 384) (ops.div height (ops.lit 480)))
            (ops.div py (ops.lit 384)))
          (ops.sub
            (ops.mul
              (ops.div
                (ops.sub height (ops.mul (ops.lit 384) (ops.div height (ops.lit 480))))
                (ops.lit 4))
              (ops.lit 3))
            (ops.mul (ops.lit 16) (ops.div height (ops.lit 480))))⟩ ∧
    scale ops ⟨ops.lit 800, ops.lit 600⟩ ⟨ops.lit 256, ops.lit 192⟩ =
      ⟨ops.lit 400, ops.lit 310⟩ := by
  have ri : ∀ n : ℤ, |n| < 2 ^ 24 → representable (n : ℚ) := representable_int
  have r16 : representable 16 := by simpa using ri 16 (by norm_num)
  have r3 : representable 3 := by simpa using ri 3 (by norm_num)
  have r4 : representable 4 := by simpa using ri 4 (by norm_num)
  have r30 : representable 30 := by simpa using ri 30 (by norm_num)
  have r70 : representable 70 := by simpa using ri 70 (by norm_num)
  have r80 : representable 80 := by simpa using ri 80 (by norm_num)
  have r90 : representable 90 := by simpa using ri 90 (by norm_num)
  have r120 : representable 120 := by simpa using ri 120 (by norm_num)
  have r160 : representable 160 := by simpa using ri 160 (by norm_num)
  have r192 : representable 192 := by simpa using ri 192 (by norm_num)
  have r240 : representable 240 := by simpa using ri 240 (by norm_num)
  have r256 : representable 256 := by simpa using ri 256 (by norm_num)
  have r310 : representable 310 := by simpa using ri 310 (by norm_num)
  have r320 : representable 320 := by simpa using ri 320 (by norm_num)
  have r384 : representable 384 := by simpa using ri 384 (by norm_num)
  have r400 : representable 400 := by simpa using ri 400 (by norm_num)
  have r480 : representable 480 := by simpa using ri 480 (by norm_num)
  have r512 : representable 512 := by simpa using ri 512 (by norm_num)
  have r600 : representable 600 := by simpa using ri 600 (by norm_num)
  have r640 : representable 640 := by simpa using ri 640 (by norm_num)
  have r800 : representable 800 := by simpa using ri 800 (by norm_num)
  have rm20 : representable (-20) := by simpa using ri (-20) (by norm_num)
  have rm16 : representable (-16) := by simpa using ri (-16) (by norm_num)
  have rh : representable (1 / 2) := representable_half
  have rq : representable (5 / 4) := representable_five_quarters
  constructor
  · simp only [scale, h.neg_mul, h.add_neg]
  · have e1 : ops.div (ops.lit 600) (ops.lit 480) = ops.lit (5 / 4) := by
      rw [h.div_exact 600 480 r600 r480 (by norm_num) (by norm_num)
        (by norm_num; exact rq)]
      norm_num
    have e2 : ops.mul (ops.lit 512) (ops.lit (5 / 4)) = ops.lit 640 := by
      rw [h.mul_exact 512 (5 / 4) r512 rq (by norm_num) (by norm_num; exact r640)]
      norm_num
    have e3 : ops.mul (ops.lit 384) (ops.lit (5 / 4)) = ops.lit 480 := by
      rw [h.mul_exact 384 (5 / 4) r384 rq (by norm_num) (by norm_num; exact r480)]
      norm_num
    have e4 : ops.sub (ops.lit 800) (ops.lit 640) = ops.lit 160 := by
      rw [h.sub_exact 800 640 r800 r640 (by norm_num) (by norm_num; exact r160)]
      norm_num
    have e5 : ops.mul (ops.lit 160) (ops.lit (1 / 2)) = ops.lit 80 := by
      rw [h.mul_exact 160 (1 / 2) r160 rh (by norm_num) (by norm_num; exact r80)]
      norm_num
    have e6 : ops.sub (ops.lit 600) (ops.lit 480) = ops.lit 120 := by
      rw [h.sub_exact 600 480 r600 r480 (by norm_num) (by norm_num; exact r120)]
      norm_num
    have e7 : ops.div (ops.lit 120) (ops.lit 4) = ops.lit 30 := by
      rw [h.div_exact 120 4 r120 r4 (by norm_num) (by norm_num)
        (by norm_num; exact r30)]
      norm_num
    have e8 : ops.mul (ops.lit 30) (ops.lit 3) = ops.lit 90 := by
      rw [h.mul_exact 30 3 r30 r3 (by norm_num) (by norm_num; exact r90)]
      norm_num
    have e9 : ops.neg (ops.lit 16) = ops.lit (-16) := h.neg_exact 16 r16 (by norm_num)
    have e10 : ops.mul (ops.lit (-16)) (ops.lit (5 / 4)) = ops.lit (-20) := by
      rw [h.mul_exact (-16) (5 / 4) rm16 rq (by norm_num) (by norm_num; exact rm20)]
      norm_num
    have e11 : ops.add (ops.lit 90) (ops.lit (-20)) = ops.lit 70 := by
      rw [h.add_exact 90 (-20) r90 rm20 (by norm_num) (by norm_num; exact r70)]
      norm_num
    have e12 : ops.div (ops.lit 256) (ops.lit 512) = ops.lit (1 / 2) := by
      rw [h.div_exact 256 512 r256 r512 (by norm_num) (by norm_num)
        (by norm_num; exact rh)]
      norm_num
    have e13 : ops.div (ops.lit 192) (ops.lit 384) = ops.lit (1 / 2) := by
      rw [h.div_exact 192 384 r192 r384 (by norm_num) (by norm_num)
        (by norm_num; exact rh)]
      norm_num
    have e14 : ops.mul (ops.lit 640) (ops.lit (1 / 2)) = ops.lit 320 := by
      rw [h.mul_exact 640 (1 / 2) r640 rh (by norm_num) (by norm_num; exact r320)]
      norm_num
    have e15 : ops.mul (ops.lit 480) (ops.lit (1 / 2)) = ops.lit 240 := by
      rw [h.mul_exact 480 (1 / 2) r480 rh (by norm_num) (by norm_num; exact r240)]
      norm_num
    have e16 : ops.add (ops.lit 320) (ops.lit 80) = ops.lit 400 := by
      rw [h.add_exact 320 80 r320 r80 (by norm_num) (by norm_num; exact r400)]
      norm_num
    have e17 : ops.add (ops.lit 240) (ops.lit 70) = ops.lit 310 := by
      rw [h.add_exact 240 70 r240 r70 (by norm_num) (by norm_num; exact r310)]
      norm_num
    simp only [scale, e1, e2, e3, e4, e5, e6, e7, e8, e9, e10, e11, e12, e13, e14, e15, e16, e17]

theorem scale_formula_witness :
    correctly_rounded signed_zero_ops ∧
    scale signed_zero_ops ⟨signed_zero_ops.lit 800, signed_zero_ops.lit 600⟩
        ⟨signed_zero_ops.lit 256, signed_zero_ops.lit 192⟩ =
      ⟨signed_zero_ops.lit 400, signed_zero_ops.lit 310⟩ ∧
    signed_zero_ops.lit 400 = .val false 400 ∧ signed_zero_ops.lit 310 = .val false 310 :=
  ⟨signed_zero_ops_correctly_rounded,
    (scale_formula signed_zero_ops signed_zero_ops_correctly_rounded
      (signed_zero_ops.lit 256) (signed_zero_ops.lit 192) (signed_zero_ops.lit 800)
      (signed_zero_ops.lit 600)).2,
    by decide, by decide⟩

/-! ## Opening the process and starting the loop -/

/-- C10, the code at the failing inputs.  With `osu!.exe` as the last entry of the
process list and an `OpenProcess` that yields a valid handle, `open_process`
returns false and leaves `proc` at `INVALID_HANDLE_VALUE`: the loop stops at
the entry whose `NextEntryOffset` is 0 before it looks at its name.  With
`osu!.exe` inside the list and an `OpenProcess` that fails with a null handle,
`open_process` returns true: the result is compared with
`INVALID_HANDLE_VALUE`, not with null. -/
theorem open_process_wrong_result :
    open_process "osu!.exe" (fun _ => 0x1F4) processes_osu_last =
      (false, INVALID_HANDLE_VALUE) ∧
    open_process "osu!.exe" (fun _ => 0) processes_osu_inside = (true, 0) := by
  refine ⟨by decide, by decide⟩

/-- C3, the code at the failing input.  The process is found, the scan resolves the
three pointers, and `osp::osr::from_file` returns null: `accept_replay` reports
the failure, `main` calls `update_replay` all the same, and the first
iteration that reads the mode `play` dereferences the null `active_replay`. -/
theorem main_enters_loop_without_replay :
    main exact_ops osu_keys ctfp_find (fun _ => 0x1F4) processes_osu_inside target_regions
        (target 15 2) none [target 15 2] =
      .entered_update_replay ["Failed to load the replay file."] target_pointers
        ⟨[], .null_dereference, 1⟩ := by
  decide!

end ReplayPlayer
